import Mathlib

/-!
Verification of the nmos-cpp Node runtime against its specification.

The development shallowly embeds the relevant parts of the source:

* `nmos/mdns.cpp` — TXT record construction/parsing, `register_service`,
  and the filtering/ranking logic of `resolve_service`;
* `nmos/system_api.cpp` — the GET and PUT handlers for
  `/x-nmos/system/v1.0/global`;
* `nmos-cpp-node/main.cpp` — startup settings handling and exit codes;
* `nmos/event_type.h` (not part of the source tree; modelled from the
  spec's event-type matching rule, checked against
  `nmos/test/event_type_test.cpp`).

Strings are embedded as `List Char` where their character-level structure
matters (TXT record values), and as `String` where they are only compared
for equality (record keys, service types). Machine integers
(`service_priority` is a C++ `int`) are embedded as `Int`; the values
involved are tiny so overflow never occurs on the inputs considered.
-/

/-! ### API versions (`nmos/api_version.h`, via its uses in `mdns.cpp`) -/

/-- An IS-04 API version, e.g. `v1.2` has `major = 1`, `minor = 2`. -/
structure api_version where
  major : Nat
  minor : Nat
deriving DecidableEq, Repr, Inhabited

/-- The lexicographic `operator<` on `api_version` (major, then minor). -/
def ver_lt (a b : api_version) : Bool :=
  a.major < b.major || (a.major == b.major && a.minor < b.minor)

/-- Non-strict version comparison, `a <= b` as the negation of `b < a`. -/
def ver_le (a b : api_version) : Bool :=
  !(ver_lt b a)

def is04_versions.v1_2 : api_version := ⟨1, 2⟩

def is04_versions.v1_3 : api_version := ⟨1, 3⟩

/-! ### Event types

The implementation of `nmos::is_matching_event_type` lives in
`nmos/event_type.h`, which is not among the given source files; only its
test `nmos/test/event_type_test.cpp` is. It is therefore modelled from the
spec. An event type is embedded as its list of `/`-separated components,
e.g. `number/temperature/C` is `["number", "temperature", "C"]`. -/

/-- The wildcard event type component. -/
def event_types.wildcard : String := "*"

/-- Modelled from the spec: `nmos::is_matching_event_type` from
`nmos/event_type.h` is missing from the source tree. The spec's rule: a
subscriber event type without a wildcard matches only the identical event
type ("specificity is required at each hierarchy level named in the
subscriber"); a subscriber whose tail component is the wildcard matches
exactly the event types that share its other components and name one
further level, e.g. `number/temperature/*` matches `number/temperature/C`
and `number/temperature/F` but not `number`, `boolean` or
`number/temperature` ("exact-prefix-plus-unit rule"). -/
def is_matching_event_type (subscriber event : List String) : Bool :=
  if subscriber.getLast? == some event_types.wildcard then
    subscriber.length == event.length && subscriber.dropLast == event.dropLast
  else
    subscriber == event

def event_types.boolean : List String := ["boolean"]

def event_types.number : List String := ["number"]

def event_types.temperature : List String := ["number", "temperature"]

def event_types.temperature_Celsius : List String := ["number", "temperature", "C"]

def event_types.temperature_Fahrenheit : List String := ["number", "temperature", "F"]

def event_types.temperature_wildcard : List String := ["number", "temperature", event_types.wildcard]

/-! ### Startup settings and exit codes (`nmos-cpp-node/main.cpp`) -/

/-- Outcome of parsing the command-line settings at startup
(`main.cpp` lines 56-70): either no argument was given, or the argument
(or the configuration file it names) parsed as a JSON object, or it parsed
as JSON but not as an object, or neither parse succeeded. -/
inductive settings_outcome where
  | no_args
  | parsed_object
  | not_an_object
  | parse_failed
deriving DecidableEq, Repr

/-- Whether startup proceeds past the settings check: it does unless an
argument was given and it could not be parsed as a JSON object. -/
def settings_ok : settings_outcome → Bool
  | settings_outcome.not_an_object => false
  | settings_outcome.parse_failed => false
  | _ => true

/-- How the body of `main` ends once settings were accepted: a clean
shutdown, or one of the exception kinds caught at `main.cpp`
lines 213-237. -/
inductive run_outcome where
  | clean_shutdown
  | json_exception
  | http_exception
  | system_exception
  | runtime_exception
  | other_exception
  | unknown_exception
deriving DecidableEq, Repr

/-- The exit code of `main` (`main.cpp`): `-1` when the command-line
settings cannot be parsed as a JSON object (line 68); otherwise the body
runs and every path — clean shutdown as well as each `catch` clause, which
only logs — falls through to `return 0;` (line 241). -/
def main_exit_code (s : settings_outcome) (r : run_outcome) : Int :=
  if settings_ok s = false then -1
  else
    match r with
    | run_outcome.clean_shutdown => 0
    | run_outcome.json_exception => 0
    | run_outcome.http_exception => 0
    | run_outcome.system_exception => 0
    | run_outcome.runtime_exception => 0
    | run_outcome.other_exception => 0
    | run_outcome.unknown_exception => 0

/-! ### Listener port defaults (`nmos-cpp-node/main.cpp` lines 92-101) -/

/-- The port-related settings of the node, each `none` when omitted. -/
structure node_settings where
  http_port : Option Int
  node_port : Option Int
  connection_port : Option Int
  events_port : Option Int
  registration_port : Option Int
  query_port : Option Int
  system_port : Option Int
  settings_port : Option Int
  logging_port : Option Int
  events_ws_port : Option Int
deriving DecidableEq, Repr

/-- Source: `web::json::insert`: sets the field only when it is absent. -/
def json_insert (field : Option Int) (value : Int) : Option Int :=
  match field with
  | some v => some v
  | none => some value

/-- Source: `main.cpp` lines 92-101: when `http_port` is present, insert it as the
default for `registration_port`, `node_port`, `connection_port`,
`settings_port` and `logging_port` (and no other port setting). -/
def insert_port_defaults (s : node_settings) : node_settings :=
  match s.http_port with
  | none => s
  | some http_port =>
    { s with
      registration_port := json_insert s.registration_port http_port,
      node_port := json_insert s.node_port http_port,
      connection_port := json_insert s.connection_port http_port,
      settings_port := json_insert s.settings_port http_port,
      logging_port := json_insert s.logging_port http_port }

/-- A settings object holding only `http_port`. -/
def only_http_port_settings : node_settings :=
  { http_port := some 3210
    node_port := none
    connection_port := none
    events_port := none
    registration_port := none
    query_port := none
    system_port := none
    settings_port := none
    logging_port := none
    events_ws_port := none }

/-! ### System API (`nmos/system_api.cpp`) -/

def status_codes.OK : Nat := 200

def status_codes.Created : Nat := 201

def status_codes.NotFound : Nat := 404

def status_codes.InternalError : Nat := 500

/-- The GET handler for `/x-nmos/system/v1.0/global` (`system_api.cpp`
lines 59-74): when the system global resource has data, reply 200 with its
data; otherwise log an error and reply 500 Internal Server Error (rather
than Not Found, since the System API does not allow a 404 response). The
stored resource is embedded as `Option β`: `some d` when it has data `d`.
The result is the reply's status code and body. -/
def get_system_global {β : Type} (resource : Option β) : Nat × Option β :=
  match resource with
  | some d => (status_codes.OK, some d)
  | none => (status_codes.InternalError, none)

/-- The PUT handler for `/x-nmos/system/v1.0/global` (`system_api.cpp`
lines 83-118). `valid` stands for the schema validator: `valid body =
false` means `validator.validate` throws for that body. When
`allow_invalid_resources` is unset, a validation failure propagates as an
exception: no reply is produced here and the stored resource is unchanged.
Otherwise (the body is valid, or invalid bodies are allowed and the
failure is only logged as a warning) the body is stored as the new system
global resource and the reply is 201 Created with the body. The result is
the reply (if any) and the new stored resource. -/
def put_system_global {β : Type} (allow_invalid_resources : Bool) (valid : β → Bool)
    (body : β) (resource : Option β) : Option (Nat × β) × Option β :=
  if allow_invalid_resources = false && valid body = false then
    (none, resource)
  else
    (some (status_codes.Created, body), some body)

/-! ### Character strings

C++ `std::string` values whose character-level structure matters (TXT
record values) are embedded as lists of character codes (`List Nat`),
written `chars`. Named codes for the characters the TXT machinery uses: -/

abbrev chars := List Nat

def comma_char : Nat := 44

def minus_char : Nat := 45

def dot_char : Nat := 46

def slash_char : Nat := 47

/-- The character code of the decimal digit `d`. -/
def digit_char (d : Nat) : Nat := 48 + d

/-- The embedding of a Lean string literal as a `chars` value. -/
def strChars (s : String) : chars := s.toList.map Char.toNat

/-! ### Decimal rendering and parsing (`details::ostringstreamed` /
`details::istringstreamed` in `mdns.cpp`) -/

/-- Little-endian decimal digits of `n`, with explicit fuel so that the
recursion is structural; `natDigitsRev n n` equals `Nat.digits 10 n`. -/
def natDigitsRev (fuel n : Nat) : List Nat :=
  match fuel with
  | 0 => []
  | fuel + 1 => if n = 0 then [] else n % 10 :: natDigitsRev fuel (n / 10)

/-- Source: `std::ostringstream << n` for a non-negative integer: its decimal
digit characters, most significant first ("0" for zero). -/
def natChars (n : Nat) : chars :=
  if n = 0 then [digit_char 0] else (natDigitsRev n n).reverse.map digit_char

/-- Source: `std::istringstream >> n` on a string of decimal digit characters. -/
def parseNatChars (cs : chars) : Nat :=
  cs.foldl (fun a c => 10 * a + (c - 48)) 0

/-- Source: `std::ostringstream << i` for an `int`: a leading minus sign for
negative values, then the decimal digits of the magnitude. -/
def intChars : Int → chars
  | Int.ofNat n => natChars n
  | Int.negSucc m => minus_char :: natChars (m + 1)

/-- Source: `std::istringstream >> i` for an `int` on a well-formed decimal
string with an optional leading minus sign. -/
def parseIntChars (cs : chars) : Int :=
  if cs.head? = some minus_char then -(parseNatChars cs.tail : Int)
  else (parseNatChars cs : Int)

/-! ### Comma-separated lists (`boost::algorithm::join` / `split`) -/

/-- Source: `boost::algorithm::join(parts, ",")`. -/
def joinComma : List chars → chars
  | [] => []
  | [x] => x
  | x :: xs => x ++ comma_char :: joinComma xs

/-- Source: `boost::algorithm::split` on `','`: the comma-separated tokens of the
input (one empty token for the empty input). -/
def splitComma : chars → List chars
  | [] => [[]]
  | c :: cs =>
    if c = comma_char then [] :: splitComma cs
    else
      match splitComma cs with
      | t :: ts => (c :: t) :: ts
      | [] => [[c]]

/-! ### API version strings -/

/-- Modelled from the spec: `nmos::make_api_version` from
`nmos/api_version.h` is missing from the source tree. The spec gives the
version string format `vMAJOR.MINOR`, e.g. `v1.0,v1.2,v1.3` for the
`api_ver` TXT record. -/
def make_api_version (v : api_version) : chars :=
  118 :: (natChars v.major ++ dot_char :: natChars v.minor)

/-- Modelled from the spec: `nmos::parse_api_version` from
`nmos/api_version.h` is missing from the source tree; it inverts
`make_api_version` on strings of the form `vMAJOR.MINOR`: the major
number sits between the leading `v` and the `.`, the minor number after
the `.`. -/
def parse_api_version (cs : chars) : api_version :=
  { major := parseNatChars ((cs.drop 1).takeWhile (fun c => c != dot_char))
    minor := parseNatChars (((cs.drop 1).dropWhile (fun c => c != dot_char)).drop 1) }

/-! ### Ordered sets of versions

A C++ `std::set<api_version>` is embedded as its ascending list of
elements; building a set from a range (`boost::copy_range<std::set<...>>`)
is folding ordered duplicate-free insertion over the range. -/

/-- Insertion into the ascending, duplicate-free element list of a
`std::set<api_version>`. -/
def setInsert (v : api_version) : List api_version → List api_version
  | [] => [v]
  | x :: xs =>
    if ver_lt v x then v :: x :: xs
    else if v = x then x :: xs
    else x :: setInsert v xs

/-- Source: `boost::copy_range<std::set<api_version>>`: collect a range into an
ordered set. -/
def setOfList (l : List api_version) : List api_version :=
  l.foldl (fun s v => setInsert v s) []

/-! ### TXT records (`nmos/mdns.cpp`) -/

/-- Source: `mdns::structured_txt_records`: key/value pairs. -/
abbrev structured_txt_records := List (String × chars)

def txt_record_keys.api_proto : String := "api_proto"

def txt_record_keys.api_ver : String := "api_ver"

def txt_record_keys.pri : String := "pri"

def txt_record_keys.ver_slf : String := "ver_slf"

def txt_record_keys.ver_src : String := "ver_src"

def txt_record_keys.ver_flw : String := "ver_flw"

def txt_record_keys.ver_dvc : String := "ver_dvc"

def txt_record_keys.ver_snd : String := "ver_snd"

def txt_record_keys.ver_rcv : String := "ver_rcv"

/-- Source: `mdns::parse_txt_record` (from the mdns library interface, used
throughout `mdns.cpp` with the comment "find and parse the ... TXT record
(or return the default)"): find the record with the given key and parse
its value, or return the default value. -/
def parse_txt_record {α : Type} (records : structured_txt_records) (key : String)
    (parse : chars → α) (default_value : α) : α :=
  match records.find? (fun r => r.1 == key) with
  | some r => parse r.2
  | none => default_value

/-- Source: `nmos::service_protocol` is a string; `service_protocols::http`. -/
def service_protocols.http : chars := strChars "http"

/-- Modelled from the spec: `service_priorities::no_priority` from
`nmos/settings.h` is missing from the source tree; per the spec's TXT
record table and glossary, priorities are integers 0..99 and "100 is
reserved as a do-not-use marker", the no-priority value. -/
def service_priorities.no_priority : Int := 100

/-- Source: `details::make_api_proto_value`: the identity on the protocol. -/
def make_api_proto_value (api_proto : chars) : chars := api_proto

/-- Source: `details::parse_api_proto_value`: the identity on the protocol. -/
def parse_api_proto_value (api_proto : chars) : chars := api_proto

/-- Source: `nmos::parse_api_proto_record`: find and parse the `api_proto` TXT
record (or return the default, `http`). -/
def parse_api_proto_record (records : structured_txt_records) : chars :=
  parse_txt_record records txt_record_keys.api_proto parse_api_proto_value service_protocols.http

/-- Source: `details::make_api_ver_value`: the supported versions, ascending,
comma-separated. -/
def make_api_ver_value (api_ver : List api_version) : chars :=
  joinComma (api_ver.map make_api_version)

/-- Source: `details::parse_api_ver_value`: split on commas, parse each version,
and collect into an ordered set. -/
def parse_api_ver_value (api_ver : chars) : List api_version :=
  setOfList ((splitComma api_ver).map parse_api_version)

/-- Source: `is04_versions::unspecified`: the default for a missing `api_ver`
record, an empty version set. -/
def is04_versions.unspecified : List api_version := []

/-- Source: `nmos::parse_api_ver_record`: find and parse the `api_ver` TXT record
(or return the default). -/
def parse_api_ver_record (records : structured_txt_records) : List api_version :=
  parse_txt_record records txt_record_keys.api_ver parse_api_ver_value is04_versions.unspecified

/-- Source: `details::make_pri_value`: the priority rendered in decimal. -/
def make_pri_value (pri : Int) : chars := intChars pri

/-- Source: `details::parse_pri_value`: `istringstreamed` with default
`no_priority`; on the well-formed decimal strings considered here
extraction succeeds, yielding the parsed value. -/
def parse_pri_value (pri : chars) : Int := parseIntChars pri

/-- Source: `nmos::parse_pri_record`: find and parse the `pri` TXT record (or
return the default, `no_priority`). -/
def parse_pri_record (records : structured_txt_records) : Int :=
  parse_txt_record records txt_record_keys.pri parse_pri_value service_priorities.no_priority

/-- Source: `nmos::service_type` is a string; the advertised service types, per
the spec's service-types list (`nmos/mdns.h` is missing from the source
tree; `mdns.cpp` compares against `service_types::node` and
`service_types::registration` and registers the literal
`"_nmos-register._tcp"`). -/
def service_types.node : String := "_nmos-node._tcp"

def service_types.registration : String := "_nmos-registration._tcp"

def service_types.query : String := "_nmos-query._tcp"

/-- The literal `"_nmos-register._tcp"` registered by `register_service`
for v1.3. -/
def service_types.register_v1_3 : String := "_nmos-register._tcp"

/-- Source: `nmos::make_txt_records` (`mdns.cpp` lines 122-141): `api_proto` and
`api_ver` records for the node service type, plus a `pri` record for
every other service type. -/
def make_txt_records (service : String) (pri : Int) (api_ver : List api_version)
    (api_proto : chars) : structured_txt_records :=
  if service = service_types.node then
    [(txt_record_keys.api_proto, make_api_proto_value api_proto),
      (txt_record_keys.api_ver, make_api_ver_value api_ver)]
  else
    [(txt_record_keys.api_proto, make_api_proto_value api_proto),
      (txt_record_keys.api_ver, make_api_ver_value api_ver),
      (txt_record_keys.pri, make_pri_value pri)]

/-- The Node `ver_` change counters (`nmos::api_resource_versions`);
non-negative integers per the spec's TXT record table. -/
structure api_resource_versions where
  self : Nat
  sources : Nat
  flows : Nat
  devices : Nat
  senders : Nat
  receivers : Nat
deriving DecidableEq, Repr

/-- Source: `details::make_ver_value`: the counter rendered in decimal. -/
def make_ver_value (ver : Nat) : chars := natChars ver

/-- Source: `details::parse_ver_value`: `istringstreamed<int>` with default 0,
cast back to a counter. -/
def parse_ver_value (ver : chars) : Nat := (parseIntChars ver).toNat

/-- Source: `nmos::make_ver_records` (`mdns.cpp` lines 158-169). -/
def make_ver_records (ver : api_resource_versions) : structured_txt_records :=
  [(txt_record_keys.ver_slf, make_ver_value ver.self),
    (txt_record_keys.ver_src, make_ver_value ver.sources),
    (txt_record_keys.ver_flw, make_ver_value ver.flows),
    (txt_record_keys.ver_dvc, make_ver_value ver.devices),
    (txt_record_keys.ver_snd, make_ver_value ver.senders),
    (txt_record_keys.ver_rcv, make_ver_value ver.receivers)]

/-- Source: `nmos::parse_ver_records` (`mdns.cpp` lines 144-155): find and parse
each of the six Node `ver_` TXT records, with default 0. -/
def parse_ver_records (records : structured_txt_records) : api_resource_versions :=
  { self := parse_txt_record records txt_record_keys.ver_slf parse_ver_value 0
    sources := parse_txt_record records txt_record_keys.ver_src parse_ver_value 0
    flows := parse_txt_record records txt_record_keys.ver_flw parse_ver_value 0
    devices := parse_txt_record records txt_record_keys.ver_dvc parse_ver_value 0
    senders := parse_txt_record records txt_record_keys.ver_snd parse_ver_value 0
    receivers := parse_txt_record records txt_record_keys.ver_rcv parse_ver_value 0 }

/-! ### Service registration (`experimental::register_service`,
`mdns.cpp` lines 205-239) -/

/-- Source: `details::service_api` (`mdns.cpp` lines 183-189). -/
def service_api (service : String) : String :=
  if service = service_types.node then "node"
  else if service = service_types.query then "query"
  else if service = service_types.registration then "registration"
  else ""

/-- The sequence of service types under which
`experimental::register_service` registers the instance (`mdns.cpp`
lines 226-238): for the registration service type, the legacy
`_nmos-registration._tcp` advertisement exactly when the lowest supported
API version (`*api_ver.begin()`, the head of the ascending set) is below
v1.3, then always `_nmos-register._tcp`; for every other service type,
just that service type. -/
def register_service_registrations (service : String) (api_ver : List api_version) : List String :=
  if service = service_types.registration then
    (if ver_lt api_ver.headI is04_versions.v1_3 then [service] else [])
      ++ [service_types.register_v1_3]
  else [service]

/-! ### Service resolution (`experimental::resolve_service`,
`mdns.cpp` lines 255-327) -/

/-- A resolved browse result (`mdns::resolve_result`), with its TXT
records already parsed into structured form
(`mdns::parse_txt_records(resolved.txt_records)`). -/
structure resolve_result where
  ip_addresses : List String
  port : Nat
  records : structured_txt_records
deriving DecidableEq, Repr

/-- A URI as assembled by `web::uri_builder` in `resolve_service`:
scheme, host, port and path. -/
structure uri where
  scheme : chars
  host : String
  port : Nat
  path : chars
deriving DecidableEq, Repr

/-- The URIs a single resolved candidate contributes to the results of
`resolve_service` (`mdns.cpp` lines 268-299): drop it when its priority
lies outside the inclusive `[priorities.first, priorities.second]` band —
a check made only for service types other than node — or when its
`api_proto` is not `http`, or when its advertised `api_ver` set does not
meet the caller's required set; otherwise take the first version of the
reversed (descending) advertised set that the caller also supports, and
contribute one URI `{scheme}://{ip}:{port}/x-nmos/{api}/{ver}` per
resolved IP address. -/
def resolve_candidate (service : String) (api_ver : List api_version)
    (priorities : Int × Int) (resolved : resolve_result) : List uri :=
  let resolved_pri := parse_pri_record resolved.records
  if service ≠ service_types.node ∧ resolved_pri < priorities.1 then []
  else if service ≠ service_types.node ∧ priorities.2 < resolved_pri then []
  else
    let resolved_proto := parse_api_proto_record resolved.records
    if service_protocols.http ≠ resolved_proto then []
    else
      let resolved_vers := parse_api_ver_record resolved.records
      match resolved_vers.reverse.find? (fun v => api_ver.contains v) with
      | none => []
      | some resolved_ver =>
        resolved.ip_addresses.map (fun ip =>
          { scheme := resolved_proto
            host := ip
            port := resolved.port
            path := strChars "/x-nmos/" ++ strChars (service_api service)
              ++ slash_char :: make_api_version resolved_ver })

/-- The `resolved_service` typedef of `resolve_service`: a
`(api_version, priority)` ranking key paired with a URI. -/
abbrev resolved_service := (api_version × Int) × uri

/-- The `std::stable_sort` comparator of `resolve_service` (`mdns.cpp`
lines 319-323): the higher version is preferred; for the same version,
the 'higher' (numerically lower) priority is preferred. -/
def resolved_service_less (lhs rhs : resolved_service) : Bool :=
  ver_lt rhs.1.1 lhs.1.1 || (lhs.1.1 == rhs.1.1 && decide (lhs.1.2 < rhs.1.2))

/-- The non-strict rank order induced by the comparator: `a` need not
come after `b`. `std::stable_sort comp` is the stable sort along this
order. -/
def service_rank_le (a b : resolved_service) : Prop := resolved_service_less b a = false

instance : DecidableRel service_rank_le := fun a b => instDecidableEqBool (resolved_service_less b a) false

/-- The ranking step of `resolve_service` (`mdns.cpp` lines 304-325) with
randomization disabled: the optional shuffle is skipped and the collected
results are stable-sorted by the comparator. `std::stable_sort` is
embedded as insertion sort, which sorts along `service_rank_le` and preserves the
relative order of elements it never swaps — the standard's specification
of a stable sort. -/
def rank_resolved_services (results : List resolved_service) : List resolved_service :=
  List.insertionSort service_rank_le results

/-- The value returned by `resolve_service` for a collected result list,
with randomization disabled (`mdns.cpp` line 325): the ranked results'
URIs. -/
def resolve_service_result (results : List resolved_service) : List uri :=
  (rank_resolved_services results).map (fun s => s.2)

/-- A resolved node-service candidate advertising `http`, version v1.3
and priority 200 (outside the usual `[0, 100]` band). -/
def node_pri_200_candidate : resolve_result :=
  { ip_addresses := ["192.168.0.1"]
    port := 3210
    records := [(txt_record_keys.api_proto, strChars "http"),
      (txt_record_keys.api_ver, make_api_ver_value [is04_versions.v1_3]),
      (txt_record_keys.pri, make_pri_value 200)] }

/-- The registration-service candidate of the spec's end-to-end browse
scenario: TXT `{api_proto: http, api_ver: v1.2,v1.3, pri: 50}`, one
loopback address. -/
def registration_example_candidate : resolve_result :=
  { ip_addresses := ["127.0.0.1"]
    port := 3210
    records := [(txt_record_keys.api_proto, strChars "http"),
      (txt_record_keys.api_ver, make_api_ver_value [is04_versions.v1_2, is04_versions.v1_3]),
      (txt_record_keys.pri, make_pri_value 50)] }

/-- Distinct URIs marking the three candidates of the spec's ranking
example. -/
def uri_a : uri :=
  { scheme := strChars "http", host := "a.example", port := 80, path := [] }

def uri_b : uri :=
  { scheme := strChars "http", host := "b.example", port := 80, path := [] }

def uri_c : uri :=
  { scheme := strChars "http", host := "c.example", port := 80, path := [] }

/-! ## Theorems

First, helper lemmas on the version order, decimal strings and ordered
sets; then one theorem per claim. -/

theorem ver_lt_iff (a b : api_version) :
    ver_lt a b = true ↔ a.major < b.major ∨ (a.major = b.major ∧ a.minor < b.minor) := by
  simp [ver_lt]

theorem ver_lt_irrefl (a : api_version) : ver_lt a a = false := by
  simp [ver_lt]

theorem ver_lt_asymm {a b : api_version} (h : ver_lt a b = true) : ver_lt b a = false := by
  rw [ver_lt_iff] at h
  cases a
  cases b
  simp only [ver_lt_iff, api_version.mk.injEq] at h ⊢
  rw [Bool.eq_false_iff]
  intro hc
  rw [ver_lt_iff] at hc
  simp only at h hc
  omega

theorem ver_lt_trans {a b c : api_version} (h1 : ver_lt a b = true) (h2 : ver_lt b c = true) :
    ver_lt a c = true := by
  cases a
  cases b
  cases c
  rw [ver_lt_iff] at h1 h2 ⊢
  simp only at h1 h2 ⊢
  omega

theorem ver_lt_total {a b : api_version} (h1 : ver_lt a b = false) (h2 : a ≠ b) :
    ver_lt b a = true := by
  obtain ⟨a1, a2⟩ := a
  obtain ⟨b1, b2⟩ := b
  rw [Bool.eq_false_iff] at h1
  simp only [ne_eq, ver_lt_iff] at h1 ⊢
  simp only [ne_eq, api_version.mk.injEq] at h2
  omega

theorem ver_le_refl (a : api_version) : ver_le a a = true := by
  simp [ver_le, ver_lt_irrefl]

theorem ver_le_of_lt {a b : api_version} (h : ver_lt a b = true) : ver_le a b = true := by
  simp [ver_le, ver_lt_asymm h]

/-! Decimal round trips. -/

theorem natDigitsRev_eq_digits : ∀ fuel n, n ≤ fuel → natDigitsRev fuel n = Nat.digits 10 n := by
  intro fuel
  induction fuel with
  | zero =>
    intro n hn
    have h0 : n = 0 := by omega
    subst h0
    simp [natDigitsRev]
  | succ fuel ih =>
    intro n hn
    by_cases h : n = 0
    · simp [natDigitsRev, h]
    · have hdiv : n / 10 < n := Nat.div_lt_self (Nat.pos_of_ne_zero h) (by norm_num)
      rw [natDigitsRev, if_neg h, ih (n / 10) (by omega),
        Nat.digits_def' (by norm_num : (1:ℕ) < 10) (Nat.pos_of_ne_zero h)]

theorem foldl_digit_chars : ∀ (ds : List Nat) (a : Nat),
    List.foldl (fun x c => 10 * x + (c - 48)) a ((ds.map digit_char).reverse)
      = a * 10 ^ ds.length + Nat.ofDigits 10 ds := by
  intro ds
  induction ds with
  | nil => simp
  | cons d t ih =>
    intro a
    have hcons : Nat.ofDigits 10 (d :: t) = d + 10 * Nat.ofDigits 10 t := by
      simp [Nat.ofDigits_cons]
    simp only [List.map_cons, List.reverse_cons, List.foldl_append, List.foldl_cons,
      List.foldl_nil, ih, List.length_cons, hcons, digit_char, pow_succ]
    have h48 : 48 + d - 48 = d := by omega
    rw [h48]
    ring_nf

theorem parseNat_natChars (n : Nat) : parseNatChars (natChars n) = n := by
  by_cases h : n = 0
  · subst h
    decide
  · unfold natChars parseNatChars
    rw [if_neg h, natDigitsRev_eq_digits n n le_rfl, List.map_reverse, foldl_digit_chars]
    simp [Nat.ofDigits_digits]

theorem natChars_mem_digit {n c : Nat} (h : c ∈ natChars n) : 48 ≤ c ∧ c ≤ 57 := by
  by_cases h0 : n = 0
  · subst h0
    have hc : c = digit_char 0 := by simpa [natChars] using h
    subst hc
    exact ⟨by decide, by decide⟩
  · rw [natChars, if_neg h0, natDigitsRev_eq_digits n n le_rfl] at h
    rw [List.mem_map] at h
    obtain ⟨d, hd, rfl⟩ := h
    rw [List.mem_reverse] at hd
    have : d < 10 := Nat.digits_lt_base (by norm_num) hd
    simp only [digit_char]
    omega

theorem natChars_ne_nil (n : Nat) : natChars n ≠ [] := by
  by_cases h0 : n = 0
  · subst h0
    decide
  · rw [natChars, if_neg h0, natDigitsRev_eq_digits n n le_rfl]
    simp [Nat.digits_ne_nil_iff_ne_zero.mpr h0]

theorem parseInt_intChars (i : Int) : parseIntChars (intChars i) = i := by
  cases i with
  | ofNat n =>
    show parseIntChars (natChars n) = (n : Int)
    obtain ⟨c, cs, hc⟩ := List.exists_cons_of_ne_nil (natChars_ne_nil n)
    have hcm : c ∈ natChars n := by
      rw [hc]
      exact List.mem_cons_self c cs
    have hd := natChars_mem_digit hcm
    rw [parseIntChars, hc, List.head?_cons,
      if_neg (by simp only [Option.some.injEq, minus_char]; omega), ← hc]
    rw [parseNat_natChars]
  | negSucc m =>
    show parseIntChars (minus_char :: natChars (m + 1)) = Int.negSucc m
    rw [parseIntChars, List.head?_cons, if_pos rfl]
    simp only [List.tail_cons, parseNat_natChars]
    rw [Int.negSucc_eq]
    push_cast
    ring_nf

/-! Splitting and joining on commas. -/

theorem splitComma_no_comma : ∀ (x : chars), (∀ c ∈ x, c ≠ comma_char) → splitComma x = [x] := by
  intro x
  induction x with
  | nil => intro _; rfl
  | cons c cs ih =>
    intro h
    have hc : c ≠ comma_char := h c (List.mem_cons_self c cs)
    have hcs := ih (fun d hd => h d (List.mem_cons_of_mem c hd))
    rw [splitComma, if_neg hc, hcs]

theorem splitComma_append : ∀ (x rest : chars), (∀ c ∈ x, c ≠ comma_char) →
    splitComma (x ++ comma_char :: rest) = x :: splitComma rest := by
  intro x
  induction x with
  | nil =>
    intro rest _
    rw [List.nil_append, splitComma, if_pos rfl]
  | cons c cs ih =>
    intro rest h
    have hc : c ≠ comma_char := h c (List.mem_cons_self c cs)
    have hcs := ih rest (fun d hd => h d (List.mem_cons_of_mem c hd))
    rw [List.cons_append, splitComma, if_neg hc, hcs]

theorem splitComma_joinComma : ∀ (parts : List chars), parts ≠ [] →
    (∀ p ∈ parts, ∀ c ∈ p, c ≠ comma_char) → splitComma (joinComma parts) = parts := by
  intro parts
  induction parts with
  | nil => intro h _; exact absurd rfl h
  | cons x xs ih =>
    intro _ h
    cases xs with
    | nil =>
      exact splitComma_no_comma x (h x (List.mem_cons_self x []))
    | cons y ys =>
      have hx := h x (List.mem_cons_self x (y :: ys))
      have hne : y :: ys ≠ [] := List.cons_ne_nil y ys
      have hrec := ih hne (fun p hp => h p (List.mem_cons_of_mem x hp))
      rw [joinComma, splitComma_append x _ hx, hrec]
      exact fun hcontra => List.noConfusion hcontra

/-! Take and drop across a separator. -/

theorem takeWhile_append_sep (p : Nat → Bool) : ∀ (xs : chars) (y : Nat) (ys : chars),
    (∀ x ∈ xs, p x = true) → p y = false → (xs ++ y :: ys).takeWhile p = xs := by
  intro xs
  induction xs with
  | nil =>
    intro y ys _ hy
    simp [List.takeWhile_cons, hy]
  | cons x t ih =>
    intro y ys hx hy
    have h1 : p x = true := hx x (List.mem_cons_self x t)
    rw [List.cons_append, List.takeWhile_cons]
    simp only [h1]
    simp only [if_true]
    rw [ih y ys (fun d hd => hx d (List.mem_cons_of_mem x hd)) hy]

theorem dropWhile_append_sep (p : Nat → Bool) : ∀ (xs : chars) (y : Nat) (ys : chars),
    (∀ x ∈ xs, p x = true) → p y = false → (xs ++ y :: ys).dropWhile p = y :: ys := by
  intro xs
  induction xs with
  | nil =>
    intro y ys _ hy
    rw [List.nil_append, List.dropWhile_cons, hy]
    simp
  | cons x t ih =>
    intro y ys hx hy
    have h1 : p x = true := hx x (List.mem_cons_self x t)
    rw [List.cons_append, List.dropWhile_cons]
    simp only [h1]
    simp only [if_true]
    exact ih y ys (fun d hd => hx d (List.mem_cons_of_mem x hd)) hy

/-! Version string round trip. -/

theorem parse_make_api_version (v : api_version) :
    parse_api_version (make_api_version v) = v := by
  have hmaj : ∀ c ∈ natChars v.major, (c != dot_char) = true := by
    intro c hc
    have := natChars_mem_digit hc
    simp only [bne_iff_ne, ne_eq, dot_char]
    omega
  have hdot : (dot_char != dot_char) = false := by decide
  obtain ⟨M, m⟩ := v
  simp only [make_api_version, parse_api_version, List.drop_succ_cons, List.drop_zero]
  rw [takeWhile_append_sep _ _ _ _ hmaj hdot, dropWhile_append_sep _ _ _ _ hmaj hdot]
  simp only [List.drop_succ_cons, List.drop_zero, parseNat_natChars]

theorem make_api_version_no_comma (v : api_version) :
    ∀ c ∈ make_api_version v, c ≠ comma_char := by
  intro c hc
  simp only [make_api_version, List.mem_cons, List.mem_append] at hc
  rcases hc with h | h
  · subst h
    decide
  · rcases h with h | h
    · have := natChars_mem_digit h
      simp only [comma_char]
      omega
    · rcases h with h | h
      · subst h
        decide
      · have := natChars_mem_digit h
        simp only [comma_char]
        omega

/-! Ordered sets of versions. -/

theorem mem_setInsert (v w : api_version) : ∀ (s : List api_version),
    w ∈ setInsert v s ↔ w = v ∨ w ∈ s := by
  intro s
  induction s with
  | nil => simp [setInsert]
  | cons x xs ih =>
    rw [setInsert]
    split_ifs with h1 h2
    · exact List.mem_cons
    · subst h2
      simp only [List.mem_cons]
      tauto
    · simp only [List.mem_cons, ih]
      tauto

theorem pairwise_setInsert (v : api_version) : ∀ (s : List api_version),
    s.Pairwise (fun a b => ver_lt a b = true) →
    (setInsert v s).Pairwise (fun a b => ver_lt a b = true) := by
  intro s
  induction s with
  | nil =>
    intro _
    simp [setInsert]
  | cons x xs ih =>
    intro h
    rw [List.pairwise_cons] at h
    obtain ⟨hx, hxs⟩ := h
    rw [setInsert]
    split_ifs with h1 h2
    · rw [List.pairwise_cons]
      refine ⟨?_, ?_⟩
      · intro b hb
        rcases List.mem_cons.mp hb with rfl | hb
        · exact h1
        · exact ver_lt_trans h1 (hx b hb)
      · rw [List.pairwise_cons]
        exact ⟨hx, hxs⟩
    · rw [List.pairwise_cons]
      exact ⟨hx, hxs⟩
    · rw [List.pairwise_cons]
      refine ⟨?_, ih hxs⟩
      intro b hb
      rcases (mem_setInsert v b xs).mp hb with rfl | hb
      · exact ver_lt_total (Bool.eq_false_iff.mpr h1) h2
      · exact hx b hb

theorem setInsert_append_last (v : api_version) : ∀ (s : List api_version),
    (∀ w ∈ s, ver_lt w v = true) → setInsert v s = s ++ [v] := by
  intro s
  induction s with
  | nil =>
    intro _
    rfl
  | cons x xs ih =>
    intro h
    have hxv : ver_lt x v = true := h x (List.mem_cons_self x xs)
    have hvx : ver_lt v x = false := ver_lt_asymm hxv
    rw [setInsert, if_neg (by rw [hvx]; exact Bool.false_ne_true),
      if_neg (by rintro rfl; rw [ver_lt_irrefl] at hxv; exact Bool.false_ne_true hxv),
      ih (fun w hw => h w (List.mem_cons_of_mem x hw)), List.cons_append]

theorem setOfList_aux_eq : ∀ (l acc : List api_version),
    (acc ++ l).Pairwise (fun a b => ver_lt a b = true) →
    List.foldl (fun s v => setInsert v s) acc l = acc ++ l := by
  intro l
  induction l with
  | nil =>
    intro acc _
    simp
  | cons v t ih =>
    intro acc h
    have hlt : ∀ w ∈ acc, ver_lt w v = true := by
      intro w hw
      exact (List.pairwise_append.mp h).2.2 w hw v (List.mem_cons_self v t)
    have h2 : ((acc ++ [v]) ++ t).Pairwise (fun a b => ver_lt a b = true) := by
      rw [List.append_assoc, List.singleton_append]
      exact h
    rw [List.foldl_cons, setInsert_append_last v acc hlt, ih (acc ++ [v]) h2,
      List.append_assoc, List.singleton_append]

theorem setOfList_eq_self (l : List api_version)
    (h : l.Pairwise (fun a b => ver_lt a b = true)) : setOfList l = l := by
  have := setOfList_aux_eq l [] (by simpa using h)
  simpa [setOfList] using this

theorem setOfList_aux_pairwise : ∀ (l acc : List api_version),
    acc.Pairwise (fun a b => ver_lt a b = true) →
    (List.foldl (fun s v => setInsert v s) acc l).Pairwise (fun a b => ver_lt a b = true) := by
  intro l
  induction l with
  | nil =>
    intro acc h
    exact h
  | cons v t ih =>
    intro acc h
    rw [List.foldl_cons]
    exact ih (setInsert v acc) (pairwise_setInsert v acc h)

theorem setOfList_pairwise (l : List api_version) :
    (setOfList l).Pairwise (fun a b => ver_lt a b = true) :=
  setOfList_aux_pairwise l [] (List.Pairwise.nil)

theorem parse_api_ver_record_pairwise (records : structured_txt_records) :
    (parse_api_ver_record records).Pairwise (fun a b => ver_lt a b = true) := by
  cases hf : List.find? (fun r => r.1 == txt_record_keys.api_ver) records with
  | none =>
    simp [parse_api_ver_record, parse_txt_record, hf, is04_versions.unspecified]
  | some r =>
    simp only [parse_api_ver_record, parse_txt_record, hf, parse_api_ver_value]
    exact setOfList_pairwise _

theorem parse_make_api_ver_value (vs : List api_version) (h1 : vs ≠ [])
    (h2 : vs.Pairwise (fun a b => ver_lt a b = true)) :
    parse_api_ver_value (make_api_ver_value vs) = vs := by
  have hnonnil : List.map make_api_version vs ≠ [] := by
    intro hm
    exact h1 (List.map_eq_nil_iff.mp hm)
  have hnc : ∀ p ∈ List.map make_api_version vs, ∀ c ∈ p, c ≠ comma_char := by
    intro p hp
    obtain ⟨v, _, rfl⟩ := List.mem_map.mp hp
    exact make_api_version_no_comma v
  rw [make_api_ver_value, parse_api_ver_value, splitComma_joinComma _ hnonnil hnc,
    List.map_map]
  have hid : (parse_api_version ∘ make_api_version) = id := funext parse_make_api_version
  rw [hid, List.map_id]
  exact setOfList_eq_self vs h2

/-! TXT record round trips. -/

theorem parseInt_natChars (n : Nat) : parseIntChars (natChars n) = (n : Int) :=
  parseInt_intChars (Int.ofNat n)

theorem parse_ver_value_make (n : Nat) : parse_ver_value (make_ver_value n) = n := by
  show (parseIntChars (intChars (Int.ofNat n))).toNat = n
  rw [parseInt_intChars]
  exact Int.toNat_ofNat n

theorem parse_make_ver_records (ver : api_resource_versions) :
    parse_ver_records (make_ver_records ver) = ver := by
  obtain ⟨a, b, c, d, e, f⟩ := ver
  show api_resource_versions.mk
      (parse_ver_value (make_ver_value a)) (parse_ver_value (make_ver_value b))
      (parse_ver_value (make_ver_value c)) (parse_ver_value (make_ver_value d))
      (parse_ver_value (make_ver_value e)) (parse_ver_value (make_ver_value f))
    = api_resource_versions.mk a b c d e f
  rw [parse_ver_value_make, parse_ver_value_make, parse_ver_value_make,
    parse_ver_value_make, parse_ver_value_make, parse_ver_value_make]

/-- C2: `is_matching_event_type` implements exactly the enumerated
matching rule: a subscriber event type without a wildcard matches only the
identical event type (`boolean` matches only `boolean`; `number` does not
match `number/temperature` and vice versa; `number/temperature` matches
only `number/temperature`, not `number/temperature/C`), and a subscriber
with a wildcard tail such as `number/temperature/*` matches
`number/temperature/C` and `number/temperature/F` but not `number`, not
`boolean`, and not `number/temperature`. -/
theorem is_matching_event_type_enumerated :
    (is_matching_event_type event_types.boolean event_types.boolean = true
      ∧ is_matching_event_type event_types.boolean event_types.number = false
      ∧ is_matching_event_type event_types.number event_types.boolean = false
      ∧ is_matching_event_type event_types.number event_types.number = true)
    ∧ (is_matching_event_type event_types.number event_types.temperature = false
      ∧ is_matching_event_type event_types.temperature event_types.number = false
      ∧ is_matching_event_type event_types.temperature event_types.temperature = true
      ∧ is_matching_event_type event_types.temperature event_types.temperature_Celsius = false)
    ∧ (is_matching_event_type event_types.temperature_Celsius event_types.temperature_Celsius = true
      ∧ is_matching_event_type event_types.temperature_Celsius event_types.temperature_Fahrenheit = false
      ∧ is_matching_event_type event_types.temperature_Fahrenheit event_types.temperature_Celsius = false
      ∧ is_matching_event_type event_types.temperature_Fahrenheit event_types.temperature_Fahrenheit = true)
    ∧ (is_matching_event_type event_types.temperature_wildcard event_types.temperature_Celsius = true
      ∧ is_matching_event_type event_types.temperature_wildcard event_types.temperature_Fahrenheit = true
      ∧ is_matching_event_type event_types.temperature_wildcard event_types.boolean = false
      ∧ is_matching_event_type event_types.temperature_wildcard event_types.number = false
      ∧ is_matching_event_type event_types.temperature_wildcard event_types.temperature = false) := by
  decide

/-- C7 counterexample: the claim asserts a non-zero exit code on an
unrecoverable fault, but when the settings parsed as an object and the run
ends in an uncaught-by-type (`catch (...)`) exception, `main` still
returns 0: every catch clause only logs and falls through to
`return 0;`. -/
theorem main_exit_code_fault_is_zero :
    main_exit_code settings_outcome.parsed_object run_outcome.unknown_exception = 0 := by
  decide

/-- C7 (amended): the process exits with code -1 exactly when the
command-line settings at startup cannot be parsed as a JSON object
(neither as a literal argument nor as a configuration file); in every
other case — clean shutdown, but also every top-level caught exception —
it exits with code 0. -/
theorem main_exit_code_spec (s : settings_outcome) (r : run_outcome) :
    main_exit_code s r = if settings_ok s then 0 else -1 := by
  cases s <;> cases r <;> decide

/-- C8 counterexample: with settings holding only `http_port = 3210`, the
claim requires `events_port` to default to 3210, but the startup code
leaves it unset (`main.cpp` lines 92-101 insert defaults only for the
registration, node, connection, settings and logging ports). -/
theorem insert_port_defaults_events_port_unset :
    only_http_port_settings.http_port = some 3210
    ∧ only_http_port_settings.events_port = none
    ∧ (insert_port_defaults only_http_port_settings).events_port = none
    ∧ (insert_port_defaults only_http_port_settings).events_port ≠ some 3210 := by
  decide

/-- C8 (amended): when `http_port` is present, each of `node_port`,
`connection_port`, `registration_port`, `settings_port` and `logging_port`
that was omitted defaults to the value of `http_port`; the settings
`events_port`, `query_port`, `system_port` and `events_ws_port` are left
untouched and do not fall back to `http_port`. -/
theorem insert_port_defaults_spec (s : node_settings) (hp : Int)
    (h : s.http_port = some hp) :
    ((s.node_port = none → (insert_port_defaults s).node_port = some hp)
      ∧ (s.connection_port = none → (insert_port_defaults s).connection_port = some hp)
      ∧ (s.registration_port = none → (insert_port_defaults s).registration_port = some hp)
      ∧ (s.settings_port = none → (insert_port_defaults s).settings_port = some hp)
      ∧ (s.logging_port = none → (insert_port_defaults s).logging_port = some hp))
    ∧ ((insert_port_defaults s).events_port = s.events_port
      ∧ (insert_port_defaults s).query_port = s.query_port
      ∧ (insert_port_defaults s).system_port = s.system_port
      ∧ (insert_port_defaults s).events_ws_port = s.events_ws_port) := by
  refine ⟨⟨?_, ?_, ?_, ?_, ?_⟩, ?_, ?_, ?_, ?_⟩
  all_goals first
    | (intro h0; simp [insert_port_defaults, json_insert, h, h0])
    | simp [insert_port_defaults, h]

/-- C8 witness: the amended statement at the concrete settings object that
holds only `http_port = 3210`. -/
theorem insert_port_defaults_spec_witness :
    (insert_port_defaults only_http_port_settings).node_port = some 3210
    ∧ (insert_port_defaults only_http_port_settings).events_ws_port = none := by
  have h := insert_port_defaults_spec only_http_port_settings 3210 (by decide)
  exact ⟨h.1.1 (by decide), (h.2.2.2.2).trans (by decide)⟩

/-- C9: PUT to `/x-nmos/system/v1.0/global` validates the body against the
system global schema: when `allow_invalid_resources` is not set, a body
failing validation is rejected (the validation exception propagates, no
reply is produced here) and the stored system global resource is left
unchanged; when `allow_invalid_resources` is set, the validation failure
is only logged as a warning, and the body is accepted, stored as the new
system global resource, and answered with 201 Created. -/
theorem put_system_global_spec {β : Type} (allow_invalid_resources : Bool)
    (valid : β → Bool) (body : β) (resource : Option β) :
    (allow_invalid_resources = false → valid body = false →
      put_system_global allow_invalid_resources valid body resource = (none, resource))
    ∧ (allow_invalid_resources = true →
      put_system_global allow_invalid_resources valid body resource
        = (some (status_codes.Created, body), some body)) := by
  constructor
  · intro ha hv
    simp [put_system_global, ha, hv]
  · intro ha
    simp [put_system_global, ha]

/-- C9 witness: both branches of the PUT handler at concrete inputs — an
invalid body is rejected with the stored resource unchanged when invalid
resources are not allowed, and stored with 201 Created when they are. -/
theorem put_system_global_spec_witness :
    put_system_global false (fun _ : Nat => false) 7 (some 3) = (none, some 3)
    ∧ put_system_global true (fun _ : Nat => false) 7 (some 3) = (some (201, 7), some 7) :=
  ⟨(put_system_global_spec false (fun _ : Nat => false) 7 (some 3)).1 rfl rfl,
    (put_system_global_spec true (fun _ : Nat => false) 7 (some 3)).2 rfl⟩

/-- C10: GET on `/x-nmos/system/v1.0/global` never returns 404: for every
state of the registry model it returns 200 with the stored system global
resource data when that resource has data, and 500 Internal Server Error
when the resource is not configured. -/
theorem get_system_global_spec {β : Type} (resource : Option β) :
    get_system_global resource
      = ((if resource.isSome then status_codes.OK else status_codes.InternalError), resource)
    ∧ (get_system_global resource).1 ≠ status_codes.NotFound := by
  cases resource <;> simp [get_system_global, status_codes.OK,
    status_codes.InternalError, status_codes.NotFound]

/-- C3 counterexample: for the node service type `make_txt_records` omits
the `pri` record (`mdns.cpp` lines 124-131), so `parse_pri_record` returns
the `no_priority` default (100) rather than the priority that was passed
in (here 0): the claimed round trip fails for the node service type. -/
theorem parse_pri_record_node_no_roundtrip :
    parse_pri_record (make_txt_records service_types.node 0 [is04_versions.v1_3]
        service_protocols.http) = service_priorities.no_priority
    ∧ service_priorities.no_priority ≠ (0 : Int) := by
  constructor
  · rfl
  · decide

/-- C3 (amended): parsing the TXT records produced by the corresponding
make function returns the original values: `parse_ver_records ∘
make_ver_records` is the identity; for every service type, priority,
valid (non-empty, ascending) api version set and protocol,
`parse_api_proto_record` and `parse_api_ver_record` applied to
`make_txt_records` return `api_proto` and `api_ver`; `parse_pri_record`
returns `pri` for every service type other than node, while for the node
service type the `pri` record is omitted and `parse_pri_record` returns
`no_priority` (100). -/
theorem txt_records_roundtrip (service : String) (pri : Int) (vs : List api_version)
    (proto : chars) (h1 : vs ≠ [])
    (h2 : vs.Pairwise (fun a b => ver_lt a b = true)) :
    (∀ ver : api_resource_versions, parse_ver_records (make_ver_records ver) = ver)
    ∧ parse_api_proto_record (make_txt_records service pri vs proto) = proto
    ∧ parse_api_ver_record (make_txt_records service pri vs proto) = vs
    ∧ (service ≠ service_types.node →
        parse_pri_record (make_txt_records service pri vs proto) = pri)
    ∧ (service = service_types.node →
        parse_pri_record (make_txt_records service pri vs proto)
          = service_priorities.no_priority) := by
  refine ⟨parse_make_ver_records, ?_, ?_, ?_, ?_⟩
  · by_cases hs : service = service_types.node
    · rw [make_txt_records, if_pos hs]
      rfl
    · rw [make_txt_records, if_neg hs]
      rfl
  · have hv : parse_api_ver_record (make_txt_records service pri vs proto)
        = parse_api_ver_value (make_api_ver_value vs) := by
      by_cases hs : service = service_types.node
      · rw [make_txt_records, if_pos hs]
        rfl
      · rw [make_txt_records, if_neg hs]
        rfl
    rw [hv]
    exact parse_make_api_ver_value vs h1 h2
  · intro hs
    have hp : parse_pri_record (make_txt_records service pri vs proto)
        = parse_pri_value (make_pri_value pri) := by
      rw [make_txt_records, if_neg hs]
      rfl
    rw [hp]
    show parseIntChars (intChars pri) = pri
    exact parseInt_intChars pri
  · intro hs
    rw [make_txt_records, if_pos hs]
    rfl

/-- C3 witness: the amended round trip at the registration service type
with priority 50, versions `{v1.2, v1.3}`, protocol `http`, and concrete
`ver_` counters. -/
theorem txt_records_roundtrip_witness :
    parse_api_proto_record (make_txt_records service_types.registration 50
      [is04_versions.v1_2, is04_versions.v1_3] service_protocols.http)
      = service_protocols.http
    ∧ parse_api_ver_record (make_txt_records service_types.registration 50
        [is04_versions.v1_2, is04_versions.v1_3] service_protocols.http)
      = [is04_versions.v1_2, is04_versions.v1_3]
    ∧ parse_pri_record (make_txt_records service_types.registration 50
        [is04_versions.v1_2, is04_versions.v1_3] service_protocols.http) = 50
    ∧ parse_ver_records (make_ver_records ⟨1, 2, 3, 4, 5, 6⟩) = ⟨1, 2, 3, 4, 5, 6⟩ := by
  have h := txt_records_roundtrip service_types.registration 50
    [is04_versions.v1_2, is04_versions.v1_3] service_protocols.http
    (by decide) (by decide)
  exact ⟨h.2.1, h.2.2.1, h.2.2.2.1 (by decide), h.1 ⟨1, 2, 3, 4, 5, 6⟩⟩

/-! The first hit when searching a descending list is the maximum hit. -/

theorem find_desc_max : ∀ (ys : List api_version) (p : api_version → Bool) (v : api_version),
    ys.Pairwise (fun a b => ver_lt b a = true) → ys.find? p = some v →
    ∀ w ∈ ys, p w = true → ver_le w v = true := by
  intro ys
  induction ys with
  | nil =>
    intro p v _ hf
    simp at hf
  | cons y t ih =>
    intro p v hp hf w hw hpw
    rw [List.pairwise_cons] at hp
    obtain ⟨hy, ht⟩ := hp
    cases hpy : p y with
    | true =>
      rw [List.find?_cons_of_pos t hpy, Option.some.injEq] at hf
      subst hf
      rcases List.mem_cons.mp hw with rfl | hw
      · exact ver_le_refl w
      · exact ver_le_of_lt (hy w hw)
    | false =>
      rw [List.find?_cons_of_neg t (by simp [hpy])] at hf
      rcases List.mem_cons.mp hw with rfl | hw
      · rw [hpy] at hpw
        exact absurd hpw Bool.false_ne_true
      · exact ih p v ht hf w hw hpw

theorem find_rev_spec {xs : List api_version} {p : api_version → Bool} {v : api_version}
    (hs : xs.Pairwise (fun a b => ver_lt a b = true))
    (hf : xs.reverse.find? p = some v) :
    p v = true ∧ v ∈ xs ∧ ∀ w ∈ xs, p w = true → ver_le w v = true := by
  have hdesc : xs.reverse.Pairwise (fun a b => ver_lt b a = true) := by
    rw [List.pairwise_reverse]
    exact hs
  refine ⟨List.find?_some hf, List.mem_reverse.mp (List.mem_of_find?_eq_some hf), ?_⟩
  intro w hw hpw
  exact find_desc_max xs.reverse p v hdesc hf w (List.mem_reverse.mpr hw) hpw

/-- C4 counterexample: for the node service type, `resolve_service` skips
the priority band check (`mdns.cpp` line 273 guards it with
`service != nmos::service_types::node`), so a node candidate whose `pri`
(200) lies outside the inclusive band `[0, 100]` still contributes its
URI, contrary to the claim that every such candidate is dropped. -/
theorem resolve_candidate_node_pri_not_dropped :
    parse_pri_record node_pri_200_candidate.records = 200
    ∧ ((100 : Int) < 200 ∧ (0 : Int) ≤ 200)
    ∧ resolve_candidate service_types.node [is04_versions.v1_3] (0, 100)
        node_pri_200_candidate ≠ [] := by
  refine ⟨rfl, by decide, ?_⟩
  decide

/-- C4 (amended): `resolve_service` contributes no URI for any candidate
whose `api_proto` TXT value is not `http`, or whose advertised `api_ver`
set does not intersect the caller's required `api_ver` set; and, for every
service type other than node, no URI for a candidate whose `pri` is
outside the inclusive band `[priorities.first, priorities.second]` (for
the node service type the priority check is skipped). -/
theorem resolve_candidate_filters (service : String) (api_ver : List api_version)
    (priorities : Int × Int) (resolved : resolve_result) :
    (parse_api_proto_record resolved.records ≠ service_protocols.http →
      resolve_candidate service api_ver priorities resolved = [])
    ∧ ((∀ v ∈ parse_api_ver_record resolved.records, v ∉ api_ver) →
      resolve_candidate service api_ver priorities resolved = [])
    ∧ (service ≠ service_types.node →
      (parse_pri_record resolved.records < priorities.1
        ∨ priorities.2 < parse_pri_record resolved.records) →
      resolve_candidate service api_ver priorities resolved = []) := by
  refine ⟨?_, ?_, ?_⟩
  · intro hproto
    rw [resolve_candidate]
    by_cases c1 : service ≠ service_types.node ∧ parse_pri_record resolved.records < priorities.1
    · rw [if_pos c1]
    · rw [if_neg c1]
      by_cases c2 : service ≠ service_types.node ∧ priorities.2 < parse_pri_record resolved.records
      · rw [if_pos c2]
      · rw [if_neg c2, if_pos (fun he => hproto he.symm)]
  · intro hvers
    rw [resolve_candidate]
    by_cases c1 : service ≠ service_types.node ∧ parse_pri_record resolved.records < priorities.1
    · rw [if_pos c1]
    · rw [if_neg c1]
      by_cases c2 : service ≠ service_types.node ∧ priorities.2 < parse_pri_record resolved.records
      · rw [if_pos c2]
      · rw [if_neg c2]
        by_cases c3 : service_protocols.http ≠ parse_api_proto_record resolved.records
        · rw [if_pos c3]
        · rw [if_neg c3]
          have hnone : (parse_api_ver_record resolved.records).reverse.find?
              (fun v => api_ver.contains v) = none := by
            rw [List.find?_eq_none]
            intro a ha
            have hmem : a ∈ parse_api_ver_record resolved.records := List.mem_reverse.mp ha
            intro hcontra
            exact hvers a hmem (List.elem_iff.mp hcontra)
          simp only [hnone]
  · intro hs hpri
    rw [resolve_candidate]
    by_cases c1 : service ≠ service_types.node ∧ parse_pri_record resolved.records < priorities.1
    · rw [if_pos c1]
    · rw [if_neg c1]
      have c2 : service ≠ service_types.node ∧ priorities.2 < parse_pri_record resolved.records := by
        refine ⟨hs, ?_⟩
        rcases hpri with h | h
        · exact absurd ⟨hs, h⟩ c1
        · exact h
      rw [if_pos c2]

/-- C4 witness: the three amended filters at concrete candidates — a
registration candidate advertising `https`, one whose versions do not
meet the caller's, and one whose priority 200 is out of band. -/
theorem resolve_candidate_filters_witness :
    resolve_candidate service_types.registration [is04_versions.v1_3] (0, 100)
      { ip_addresses := ["127.0.0.1"], port := 3210,
        records := [(txt_record_keys.api_proto, strChars "https")] } = []
    ∧ resolve_candidate service_types.registration [is04_versions.v1_3] (0, 100)
      { ip_addresses := ["127.0.0.1"], port := 3210,
        records := [(txt_record_keys.api_proto, strChars "http"),
          (txt_record_keys.api_ver, make_api_ver_value [is04_versions.v1_2]),
          (txt_record_keys.pri, make_pri_value 50)] } = []
    ∧ resolve_candidate service_types.registration [is04_versions.v1_3] (0, 100)
      { ip_addresses := ["127.0.0.1"], port := 3210,
        records := node_pri_200_candidate.records } = [] := by
  refine ⟨?_, ?_, ?_⟩
  · exact (resolve_candidate_filters service_types.registration [is04_versions.v1_3]
      (0, 100) _).1 (by decide)
  · exact (resolve_candidate_filters service_types.registration [is04_versions.v1_3]
      (0, 100) _).2.1 (by decide)
  · exact (resolve_candidate_filters service_types.registration [is04_versions.v1_3]
      (0, 100) _).2.2 (by decide) (by decide)

/-- C5: for each candidate that passes filtering, `resolve_service`
selects the highest api version common to the candidate's advertised
`api_ver` set and the caller's required set, and appends, for each
resolved IP address, one URI `{scheme}://{ip}:{port}/x-nmos/{api}/{ver}`;
in particular, the spec's browse of `_nmos-register._tcp` with TXT
`{api_proto: http, api_ver: v1.2,v1.3, pri: 50}` yields exactly one URI,
ending in `/x-nmos/registration/v1.3`. -/
theorem resolve_candidate_highest_version (service : String) (api_ver : List api_version)
    (priorities : Int × Int) (resolved : resolve_result)
    (hpri : service = service_types.node
      ∨ (priorities.1 ≤ parse_pri_record resolved.records
          ∧ parse_pri_record resolved.records ≤ priorities.2))
    (hproto : parse_api_proto_record resolved.records = service_protocols.http)
    (common : api_version) (hc1 : common ∈ parse_api_ver_record resolved.records)
    (hc2 : common ∈ api_ver) :
    (∃ ver : api_version,
      ver ∈ parse_api_ver_record resolved.records ∧ ver ∈ api_ver
      ∧ (∀ w ∈ parse_api_ver_record resolved.records, w ∈ api_ver → ver_le w ver = true)
      ∧ resolve_candidate service api_ver priorities resolved
        = resolved.ip_addresses.map (fun ip =>
            { scheme := service_protocols.http
              host := ip
              port := resolved.port
              path := strChars "/x-nmos/" ++ strChars (service_api service)
                ++ slash_char :: make_api_version ver }))
    ∧ resolve_candidate service_types.registration
        [is04_versions.v1_2, is04_versions.v1_3] (0, 100) registration_example_candidate
      = [{ scheme := service_protocols.http, host := "127.0.0.1", port := 3210,
           path := strChars "/x-nmos/registration/v1.3" }] := by
  refine ⟨?_, by decide⟩
  have hif1 : ¬(service ≠ service_types.node
      ∧ parse_pri_record resolved.records < priorities.1) := by
    rcases hpri with h | h
    · exact fun hcontra => hcontra.1 h
    · intro hcontra
      have h1 := h.1
      have h2 := hcontra.2
      omega
  have hif2 : ¬(service ≠ service_types.node
      ∧ priorities.2 < parse_pri_record resolved.records) := by
    rcases hpri with h | h
    · exact fun hcontra => hcontra.1 h
    · intro hcontra
      have h1 := h.2
      have h2 := hcontra.2
      omega
  have hif3 : ¬(service_protocols.http ≠ parse_api_proto_record resolved.records) := by
    rw [hproto]
    exact fun hh => hh rfl
  cases hfind : (parse_api_ver_record resolved.records).reverse.find?
      (fun v => api_ver.contains v) with
  | none =>
    exfalso
    rw [List.find?_eq_none] at hfind
    exact hfind common (List.mem_reverse.mpr hc1) (List.elem_iff.mpr hc2)
  | some v =>
    obtain ⟨hpv, hmem, hmax⟩ :=
      find_rev_spec (parse_api_ver_record_pairwise resolved.records) hfind
    refine ⟨v, hmem, List.elem_iff.mp hpv,
      (fun w hwmem hwapi => hmax w hwmem (List.elem_iff.mpr hwapi)), ?_⟩
    rw [resolve_candidate, if_neg hif1, if_neg hif2, if_neg hif3]
    simp only [hfind, hproto]

/-- C5 witness: the spec's end-to-end browse scenario, by the theorem
applied at the registration service type, caller versions `{v1.2, v1.3}`,
priority band `[0, 100]` and the concrete loopback candidate. -/
theorem resolve_candidate_highest_version_witness :
    resolve_candidate service_types.registration [is04_versions.v1_2, is04_versions.v1_3]
        (0, 100) registration_example_candidate
      = [{ scheme := service_protocols.http, host := "127.0.0.1", port := 3210,
           path := strChars "/x-nmos/registration/v1.3" }] :=
  (resolve_candidate_highest_version service_types.registration
    [is04_versions.v1_2, is04_versions.v1_3] (0, 100) registration_example_candidate
    (Or.inr (by decide)) (by decide) is04_versions.v1_3 (by decide) (by decide)).2

/-- C6: `register_service` for the registration service type always
registers the instance under `_nmos-register._tcp`, and additionally
registers it under the legacy `_nmos-registration._tcp` service type
exactly when the lowest supported API version (the head of the ascending
version set, shown lowest by the first conjunct) is below v1.3; for every
other service type it registers the instance under that single service
type only. -/
theorem register_service_types_spec (api_ver : List api_version)
    (h1 : api_ver ≠ [])
    (h2 : api_ver.Pairwise (fun a b => ver_lt a b = true)) :
    (∀ v ∈ api_ver, ver_le api_ver.headI v = true)
    ∧ register_service_registrations service_types.registration api_ver
      = (if ver_lt api_ver.headI is04_versions.v1_3 then
          [service_types.registration, service_types.register_v1_3]
        else [service_types.register_v1_3])
    ∧ service_types.register_v1_3 ∈
        register_service_registrations service_types.registration api_ver
    ∧ ∀ s : String, s ≠ service_types.registration →
        register_service_registrations s api_ver = [s] := by
  obtain ⟨x, t, rfl⟩ := List.exists_cons_of_ne_nil h1
  rw [List.pairwise_cons] at h2
  obtain ⟨hx, _⟩ := h2
  refine ⟨?_, ?_, ?_, ?_⟩
  · intro v hv
    rcases List.mem_cons.mp hv with rfl | hv
    · exact ver_le_refl v
    · exact ver_le_of_lt (hx v hv)
  · rw [register_service_registrations, if_pos rfl]
    by_cases hlt : ver_lt (x :: t).headI is04_versions.v1_3 = true
    · rw [if_pos hlt, if_pos hlt]
      rfl
    · rw [if_neg hlt, if_neg hlt]
      rfl
  · rw [register_service_registrations, if_pos rfl]
    by_cases hlt : ver_lt (x :: t).headI is04_versions.v1_3 = true
    · rw [if_pos hlt]
      exact List.mem_cons_of_mem _ (List.mem_singleton.mpr rfl)
    · rw [if_neg hlt]
      exact List.mem_singleton.mpr rfl
  · intro s hs
    rw [register_service_registrations, if_neg hs]

/-- C6 witness: with supported versions `{v1.2, v1.3}` (lowest below
v1.3), the registration service type is registered under both service
types; the query service type is registered under itself only. -/
theorem register_service_types_spec_witness :
    register_service_registrations service_types.registration
        [is04_versions.v1_2, is04_versions.v1_3]
      = [service_types.registration, service_types.register_v1_3]
    ∧ register_service_registrations service_types.query
        [is04_versions.v1_2, is04_versions.v1_3] = [service_types.query] := by
  have h := register_service_types_spec [is04_versions.v1_2, is04_versions.v1_3]
    (by decide) (by decide)
  constructor
  · rw [h.2.1]
    decide
  · exact h.2.2.2 service_types.query (by decide)

/-! The rank order of `resolve_service` is a total preorder, and elements
with equal ranking keys are mutually unordered. -/

theorem resolved_service_less_iff (l r : resolved_service) :
    resolved_service_less l r = true
      ↔ ver_lt r.1.1 l.1.1 = true ∨ (l.1.1 = r.1.1 ∧ l.1.2 < r.1.2) := by
  simp [resolved_service_less, Bool.or_eq_true, Bool.and_eq_true, beq_iff_eq,
    decide_eq_true_eq]

theorem service_rank_le_iff (a b : resolved_service) :
    service_rank_le a b
      ↔ ¬(ver_lt a.1.1 b.1.1 = true ∨ (b.1.1 = a.1.1 ∧ b.1.2 < a.1.2)) := by
  rw [service_rank_le, Bool.eq_false_iff, ne_eq, resolved_service_less_iff]

theorem service_rank_le_total : ∀ a b : resolved_service,
    service_rank_le a b ∨ service_rank_le b a := by
  intro a b
  by_contra hc
  rw [not_or, service_rank_le_iff, service_rank_le_iff, not_not, not_not] at hc
  obtain ⟨h1, h2⟩ := hc
  rcases h1 with h1 | ⟨h1e, h1p⟩
  · rcases h2 with h2 | ⟨h2e, h2p⟩
    · rw [ver_lt_asymm h1] at h2
      exact Bool.false_ne_true h2
    · rw [h2e, ver_lt_irrefl] at h1
      exact Bool.false_ne_true h1
  · rcases h2 with h2 | ⟨h2e, h2p⟩
    · rw [h1e, ver_lt_irrefl] at h2
      exact Bool.false_ne_true h2
    · omega

theorem service_rank_le_trans : ∀ a b c : resolved_service,
    service_rank_le a b → service_rank_le b c → service_rank_le a c := by
  intro a b c hab hbc
  rw [service_rank_le_iff] at hab hbc ⊢
  rw [not_or] at hab hbc
  obtain ⟨hab1, hab2⟩ := hab
  obtain ⟨hbc1, hbc2⟩ := hbc
  rw [Bool.not_eq_true] at hab1 hbc1
  rw [not_or]
  constructor
  · rw [Bool.not_eq_true]
    by_contra hac
    rw [Bool.not_eq_false] at hac
    by_cases hvab : a.1.1 = b.1.1
    · rw [← hvab] at hbc1
      rw [hbc1] at hac
      exact Bool.false_ne_true hac
    · have hba : ver_lt b.1.1 a.1.1 = true := ver_lt_total hab1 hvab
      have : ver_lt b.1.1 c.1.1 = true := ver_lt_trans hba hac
      rw [hbc1] at this
      exact Bool.false_ne_true this
  · rintro ⟨hce, hcp⟩
    by_cases hvab : a.1.1 = b.1.1
    · have h1 : ¬ b.1.2 < a.1.2 := fun hlt => hab2 ⟨hvab.symm, hlt⟩
      have h2 : ¬ c.1.2 < b.1.2 := fun hlt => hbc2 ⟨by rw [hce, hvab], hlt⟩
      omega
    · have hba : ver_lt b.1.1 a.1.1 = true := ver_lt_total hab1 hvab
      have : ver_lt b.1.1 c.1.1 = true := by rw [hce]; exact hba
      rw [hbc1] at this
      exact Bool.false_ne_true this

theorem service_rank_le_of_key_eq {a b : resolved_service} (h : a.1 = b.1) :
    service_rank_le a b := by
  rw [service_rank_le_iff, h]
  rintro (hlt | ⟨_, hlt⟩)
  · rw [ver_lt_irrefl] at hlt
    exact Bool.false_ne_true hlt
  · omega

theorem service_rank_le_implies (a b : resolved_service) (h : service_rank_le a b) :
    ver_lt b.1.1 a.1.1 = true ∨ (a.1.1 = b.1.1 ∧ a.1.2 ≤ b.1.2) := by
  rw [service_rank_le_iff, not_or] at h
  obtain ⟨h1, h2⟩ := h
  rw [Bool.not_eq_true] at h1
  by_cases hv : a.1.1 = b.1.1
  · refine Or.inr ⟨hv, ?_⟩
    have hnlt : ¬ b.1.2 < a.1.2 := fun hlt => h2 ⟨hv.symm, hlt⟩
    omega
  · exact Or.inl (ver_lt_total h1 hv)

/-- C1: with randomization disabled, the ranking step of
`resolve_service` returns the collected candidates stable-sorted so that
a candidate with a higher `api_ver` comes first and, among candidates
with equal `api_ver`, one with lower `pri` comes first: the ranked list
is a permutation of the input, consecutive entries are ordered by
(higher version, then lower priority), candidates with equal ranking
keys keep their original relative order, and on the spec's example
`{(v1.2, pri=10), (v1.3, pri=100), (v1.3, pri=10)}` the returned URIs
are those of `(v1.3, 10), (v1.3, 100), (v1.2, 10)` in that order. -/
theorem resolve_service_ranking (results : List resolved_service) :
    List.Perm (rank_resolved_services results) results
    ∧ (rank_resolved_services results).Pairwise
        (fun a b => ver_lt b.1.1 a.1.1 = true ∨ (a.1.1 = b.1.1 ∧ a.1.2 ≤ b.1.2))
    ∧ (∀ k : api_version × Int,
        (rank_resolved_services results).filter (fun s => s.1 == k)
          = results.filter (fun s => s.1 == k))
    ∧ resolve_service_result
        [((is04_versions.v1_2, 10), uri_a), ((is04_versions.v1_3, 100), uri_b),
          ((is04_versions.v1_3, 10), uri_c)]
      = [uri_c, uri_b, uri_a] := by
  haveI : IsTotal resolved_service service_rank_le := ⟨service_rank_le_total⟩
  haveI : IsTrans resolved_service service_rank_le := ⟨service_rank_le_trans⟩
  refine ⟨List.perm_insertionSort service_rank_le results, ?_, ?_, ?_⟩
  · have hs := List.sorted_insertionSort service_rank_le results
    exact List.Pairwise.imp (fun h => service_rank_le_implies _ _ h) hs
  · intro k
    have hpair : (results.filter (fun s => s.1 == k)).Pairwise service_rank_le := by
      refine List.pairwise_of_forall_mem_list ?_
      intro a ha b hb
      have ha2 : a.1 = k := by simpa using (List.mem_filter.mp ha).2
      have hb2 : b.1 = k := by simpa using (List.mem_filter.mp hb).2
      exact service_rank_le_of_key_eq (ha2.trans hb2.symm)
    have hsub := List.sublist_insertionSort hpair (List.filter_sublist results)
    have hsub2 := hsub.filter (fun s => s.1 == k)
    have hff : (results.filter (fun s => s.1 == k)).filter (fun s => s.1 == k)
        = results.filter (fun s => s.1 == k) := by
      simp [List.filter_filter]
    rw [hff] at hsub2
    have hperm := (List.perm_insertionSort service_rank_le results).filter
      (fun s => s.1 == k)
    exact (hsub2.eq_of_length hperm.length_eq.symm).symm
  · rfl
